import Mathlib

/-!
# Verification of the call-center transcript analyzer

Shallow embedding of the sentiment/protocol analysis engine
(`analysis.py`) and the interactive lexicon-resolution workflow
(`interactive.py`).  Python dictionaries (`word -> weight`) are
modelled as association lists `List (String × Int)` looked up with
`List.lookup`; Python lists as Lean lists; file contents as `List Char`.
-/

/-- A Python dict `str -> int` is modelled as an association list;
`w in d` is `(d.lookup w).isSome`, `d[w]` is `d.lookup w`. -/
abbrev Dict := List (String × Int)

/-- Python dict assignment `d[k] = v`: updates the value in place when the
key exists, otherwise appends the new binding (insertion order). -/
def dinsert (m : Dict) (k : String) (v : Int) : Dict :=
  if (m.lookup k).isSome then
    m.map (fun p => if p.1 = k then (k, v) else p)
  else m ++ [(k, v)]

/-- Accumulator of the single pass of `analiza_sentimiento` over the token
list: running total and the three hit lists, in source order. -/
structure ScanAcc where
  total : Int
  pos_list : List (String × Int)
  neg_list : List (String × Int)
  neut_list : List String
  deriving DecidableEq, Repr

/-- The `for w in words` loop of `analiza_sentimiento`
(`analysis.py`, lines 183-193): each token is looked up first in
`positivos`, `elif` in `negativos`, `elif` in `neutros`; positive and
negative hits add their weight to the running total. -/
def categorize (positivos negativos neutros : Dict) : List String → ScanAcc
  | [] => ⟨0, [], [], []⟩
  | w :: ws =>
    let r := categorize positivos negativos neutros ws
    match positivos.lookup w with
    | some p => ⟨p + r.total, (w, p) :: r.pos_list, r.neg_list, r.neut_list⟩
    | none =>
      match negativos.lookup w with
      | some n => ⟨n + r.total, r.pos_list, (w, n) :: r.neg_list, r.neut_list⟩
      | none =>
        match neutros.lookup w with
        | some _ => ⟨r.total, r.pos_list, r.neg_list, w :: r.neut_list⟩
        | none => r

/-- Python `max` over a non-empty list (0 on the empty list, a case the
caller guards). -/
def listMaxD : List Int → Int
  | [] => 0
  | x :: xs => xs.foldl max x

/-- Python `min` over a non-empty list (0 on the empty list). -/
def listMinD : List Int → Int
  | [] => 0
  | x :: xs => xs.foldl min x

/-- `analysis.py` lines 202-207: maximum positive weight and all words
attaining it, or `(0, [])` when there is no positive hit. -/
def topPos (l : List (String × Int)) : Int × List String :=
  match l with
  | [] => (0, [])
  | _ =>
    let m := listMaxD (l.map Prod.snd)
    (m, (l.filter (fun x => x.2 = m)).map Prod.fst)

/-- `analysis.py` lines 209-214: minimum negative weight and all words
attaining it, or `(0, [])` when there is no negative hit. -/
def topNeg (l : List (String × Int)) : Int × List String :=
  match l with
  | [] => (0, [])
  | _ =>
    let m := listMinD (l.map Prod.snd)
    (m, (l.filter (fun x => x.2 = m)).map Prod.fst)

/-- The tuple returned by `analiza_sentimiento`. -/
structure SentimentResult where
  total : Int
  pos_count : Nat
  pos_words : List String
  top_pos_words : List String
  top_pos_weight : Int
  neg_count : Nat
  neg_words : List String
  top_neg_words : List String
  top_neg_weight : Int
  neut_count : Nat
  neut_words : List String
  deriving DecidableEq, Repr

/-- `analiza_sentimiento` (`analysis.py`, lines 158-221). -/
def analiza_sentimiento (words : List String)
    (positivos negativos neutros : Dict) : SentimentResult :=
  let a := categorize positivos negativos neutros words
  { total := a.total
    pos_count := a.pos_list.length
    pos_words := a.pos_list.map Prod.fst
    top_pos_words := (topPos a.pos_list).2
    top_pos_weight := (topPos a.pos_list).1
    neg_count := a.neg_list.length
    neg_words := a.neg_list.map Prod.fst
    top_neg_words := (topNeg a.neg_list).2
    top_neg_weight := (topNeg a.neg_list).1
    neut_count := a.neut_list.length
    neut_words := a.neut_list }

/-- Python string comparison `a <= b`: lexicographic by code point. -/
def strLeB : List Char → List Char → Bool
  | [], _ => true
  | _ :: _, [] => false
  | a :: as, b :: bs =>
    if a.toNat < b.toNat then true
    else if b.toNat < a.toNat then false
    else strLeB as bs

/-- `find_undefined` (`analysis.py`, lines 243-257):
`sorted({w for w in words if w not in positivos and w not in negativos
and w not in neutros})` — the distinct tokens absent from all three
lexicons, sorted lexicographically (Python sorts `str` by code point;
a stable sort of the deduplicated filter computes the same list). -/
def find_undefined (words : List String)
    (positivos negativos neutros : Dict) : List String :=
  ((words.filter (fun w =>
      (positivos.lookup w).isNone && (negativos.lookup w).isNone &&
      (neutros.lookup w).isNone)).dedup).insertionSort
    (fun a b => strLeB a.data b.data = true)

/-- Weight a positive hit carries: the lexicon entry of the word. -/
def weightIn (d : Dict) (w : String) : Int := (d.lookup w).getD 0

theorem categorize_pos_list (P N T : Dict) (ws : List String) :
    (categorize P N T ws).pos_list =
      (ws.filter (fun w => (P.lookup w).isSome)).map
        (fun w => (w, weightIn P w)) := by
  induction ws with
  | nil => rfl
  | cons w ws ih =>
    rcases hP : P.lookup w with _ | p <;>
      rcases hN : N.lookup w with _ | n <;>
        rcases hT : T.lookup w with _ | t <;>
          simp [categorize, hP, hN, hT, ih, weightIn]

theorem categorize_neg_list (P N T : Dict) (ws : List String) :
    (categorize P N T ws).neg_list =
      (ws.filter (fun w => (P.lookup w).isNone && (N.lookup w).isSome)).map
        (fun w => (w, weightIn N w)) := by
  induction ws with
  | nil => rfl
  | cons w ws ih =>
    rcases hP : P.lookup w with _ | p <;>
      rcases hN : N.lookup w with _ | n <;>
        rcases hT : T.lookup w with _ | t <;>
          simp [categorize, hP, hN, hT, ih, weightIn]

theorem categorize_neut_list (P N T : Dict) (ws : List String) :
    (categorize P N T ws).neut_list =
      ws.filter (fun w =>
        (P.lookup w).isNone && (N.lookup w).isNone && (T.lookup w).isSome) := by
  induction ws with
  | nil => rfl
  | cons w ws ih =>
    rcases hP : P.lookup w with _ | p <;>
      rcases hN : N.lookup w with _ | n <;>
        rcases hT : T.lookup w with _ | t <;>
          simp [categorize, hP, hN, hT, ih]

theorem categorize_total (P N T : Dict) (ws : List String) :
    (categorize P N T ws).total =
      (((categorize P N T ws).pos_list.map Prod.snd).sum : Int) +
      ((categorize P N T ws).neg_list.map Prod.snd).sum := by
  induction ws with
  | nil => rfl
  | cons w ws ih =>
    rcases hP : P.lookup w with _ | p <;>
      rcases hN : N.lookup w with _ | n <;>
        rcases hT : T.lookup w with _ | t <;>
          simp [categorize, hP, hN, hT, ih] <;> ring

theorem foldl_max_bounds (xs : List Int) (x : Int) :
    x ≤ xs.foldl max x ∧ ∀ y ∈ xs, y ≤ xs.foldl max x := by
  induction xs generalizing x with
  | nil => simp
  | cons a as ih =>
    refine ⟨le_trans (le_max_left x a) (ih (max x a)).1, ?_⟩
    intro y hy
    rcases List.mem_cons.mp hy with rfl | hy
    · exact le_trans (le_max_right x y) (ih (max x y)).1
    · exact (ih (max x a)).2 y hy

theorem foldl_max_mem (xs : List Int) (x : Int) :
    xs.foldl max x = x ∨ xs.foldl max x ∈ xs := by
  induction xs generalizing x with
  | nil => exact Or.inl rfl
  | cons a as ih =>
    rcases ih (max x a) with h | h
    · rcases max_choice x a with hm | hm
      · exact Or.inl (by simpa [hm] using h)
      · exact Or.inr (List.mem_cons.mpr (Or.inl (by simpa [hm] using h)))
    · exact Or.inr (List.mem_cons.mpr (Or.inr h))

theorem foldl_min_bounds (xs : List Int) (x : Int) :
    xs.foldl min x ≤ x ∧ ∀ y ∈ xs, xs.foldl min x ≤ y := by
  induction xs generalizing x with
  | nil => simp
  | cons a as ih =>
    refine ⟨le_trans (ih (min x a)).1 (min_le_left x a), ?_⟩
    intro y hy
    rcases List.mem_cons.mp hy with rfl | hy
    · exact le_trans (ih (min x y)).1 (min_le_right x y)
    · exact (ih (min x a)).2 y hy

theorem foldl_min_mem (xs : List Int) (x : Int) :
    xs.foldl min x = x ∨ xs.foldl min x ∈ xs := by
  induction xs generalizing x with
  | nil => exact Or.inl rfl
  | cons a as ih =>
    rcases ih (min x a) with h | h
    · rcases min_choice x a with hm | hm
      · exact Or.inl (by simpa [hm] using h)
      · exact Or.inr (List.mem_cons.mpr (Or.inl (by simpa [hm] using h)))
    · exact Or.inr (List.mem_cons.mpr (Or.inr h))

theorem listMaxD_mem (l : List Int) (h : l ≠ []) : listMaxD l ∈ l := by
  match l with
  | x :: xs =>
    rcases foldl_max_mem xs x with h' | h'
    · exact List.mem_cons.mpr (Or.inl h')
    · exact List.mem_cons.mpr (Or.inr h')

theorem listMaxD_le (l : List Int) (y : Int) (hy : y ∈ l) : y ≤ listMaxD l := by
  match l with
  | x :: xs =>
    rcases List.mem_cons.mp hy with rfl | hy
    · exact (foldl_max_bounds xs y).1
    · exact (foldl_max_bounds xs x).2 y hy

theorem listMinD_mem (l : List Int) (h : l ≠ []) : listMinD l ∈ l := by
  match l with
  | x :: xs =>
    rcases foldl_min_mem xs x with h' | h'
    · exact List.mem_cons.mpr (Or.inl h')
    · exact List.mem_cons.mpr (Or.inr h')

theorem listMinD_le (l : List Int) (y : Int) (hy : y ∈ l) : listMinD l ≤ y := by
  match l with
  | x :: xs =>
    rcases List.mem_cons.mp hy with rfl | hy
    · exact (foldl_min_bounds xs y).1
    · exact (foldl_min_bounds xs x).2 y hy

example :
    analiza_sentimiento ["el", "servicio", "fue", "excelente", "y", "terrible"]
      [("excelente", 3)] [("terrible", -3)] [] =
    { total := 0
      pos_count := 1, pos_words := ["excelente"]
      top_pos_words := ["excelente"], top_pos_weight := 3
      neg_count := 1, neg_words := ["terrible"]
      top_neg_words := ["terrible"], top_neg_weight := -3
      neut_count := 0, neut_words := [] } := by decide

example :
    find_undefined ["zeta", "alfa", "zeta", "bueno"] [("bueno", 2)] [] [] =
      ["alfa", "zeta"] := by decide

/-- Python `str.lower` on one character, for the Latin repertoire the
analyzer handles (ASCII plus accented Spanish vowels and enye). -/
def pyLowerChar (c : Char) : Char :=
  if 'A' ≤ c ∧ c ≤ 'Z' then Char.ofNat (c.toNat + 32)
  else
    match c with
    | 'Á' => 'á'
    | 'É' => 'é'
    | 'Í' => 'í'
    | 'Ó' => 'ó'
    | 'Ú' => 'ú'
    | 'Ü' => 'ü'
    | 'Ñ' => 'ñ'
    | c => c

/-- Python `str.lower`. -/
def pyLower (s : String) : String := ⟨s.data.map pyLowerChar⟩

/-- One character of `strip_accents` (`analysis.py`, lines 9-16): NFD
decomposition followed by dropping combining marks maps each precomposed
accented Latin letter to its base letter; other characters are kept. -/
def deaccentChar (c : Char) : Char :=
  match c with
  | 'á' => 'a'
  | 'é' => 'e'
  | 'í' => 'i'
  | 'ó' => 'o'
  | 'ú' => 'u'
  | 'ü' => 'u'
  | 'ñ' => 'n'
  | 'Á' => 'A'
  | 'É' => 'E'
  | 'Í' => 'I'
  | 'Ó' => 'O'
  | 'Ú' => 'U'
  | 'Ü' => 'U'
  | 'Ñ' => 'N'
  | c => c

/-- `strip_accents` (`analysis.py`, lines 9-16), modelled character by
character for the Latin repertoire. -/
def strip_accents (s : String) : String := ⟨s.data.map deaccentChar⟩

/-- Python `str.strip`: removes leading and trailing whitespace. -/
def pyStrip (s : String) : String :=
  ⟨((s.data.dropWhile Char.isWhitespace).reverse.dropWhile
      Char.isWhitespace).reverse⟩

/-- Python `str.isdigit` (restricted to ASCII digits): non-empty and all
characters are digits. -/
def isdigitStr (s : String) : Bool := !s.data.isEmpty && s.data.all Char.isDigit

/-- Value of a digit string (what `int` returns on an `isdigit` string). -/
def digitsToNat (l : List Char) : Nat :=
  l.foldl (fun n c => 10 * n + (c.toNat - 48)) 0

/-- Python `str` used as a selection index: `int(sel)` for digit strings. -/
def strToNat (s : String) : Nat := digitsToNat s.data

/-- Python `int(s)` on an already-stripped string: optional sign followed
by at least one digit, otherwise `ValueError` (modelled as `none`). -/
def parseInt (s : String) : Option Int :=
  match s.data with
  | [] => none
  | '-' :: rest =>
    if !rest.isEmpty && rest.all Char.isDigit then
      some (-(digitsToNat rest : Int))
    else none
  | '+' :: rest =>
    if !rest.isEmpty && rest.all Char.isDigit then
      some ((digitsToNat rest : Int))
    else none
  | l =>
    if l.all Char.isDigit then some ((digitsToNat l : Int)) else none

/-- Levenshtein edit distance, fuelled so that the recursion is structural;
`levDistance` supplies enough fuel (every recursive call removes at least
one character from the two lists together). -/
def levFuel : Nat → List Char → List Char → Nat
  | _, [], ys => ys.length
  | _, xs, [] => xs.length
  | 0, _, _ => 0
  | f + 1, x :: xs, y :: ys =>
    if x = y then levFuel f xs ys
    else 1 + min (levFuel f xs (y :: ys)) (min (levFuel f (x :: xs) ys) (levFuel f xs ys))

/-- `Levenshtein.distance` from the `python-Levenshtein` library. -/
def levDistance (a b : String) : Nat :=
  levFuel (a.data.length + b.data.length) a.data b.data

/-- `Levenshtein.hamming`: number of positions at which two equal-length
strings differ (the caller guards the equal-length requirement). -/
def hamming : List Char → List Char → Nat
  | x :: xs, y :: ys => (if x = y then 0 else 1) + hamming xs ys
  | _, _ => 0

/-- Comparison of the optional Hamming component of a suggestion key;
`none` models Python's `float('inf')` (lengths differ). -/
def hamLe : Option Nat → Option Nat → Bool
  | _, none => true
  | none, some _ => false
  | some a, some b => decide (a ≤ b)

/-- Non-strict comparison of suggestion sort keys `(lev, ham)`, matching
Python's tuple order with `inf` as worst Hamming value. -/
def keyLe (k1 k2 : Nat × Option Nat) : Bool :=
  decide (k1.1 < k2.1) || (decide (k1.1 = k2.1) && hamLe k1.2 k2.2)

/-- `suggest_candidates` (`interactive.py`, lines 22-33): every lexicon key
paired with its Levenshtein distance to `word` and, when the lengths are
equal, its Hamming distance (`none` = infinite); stably sorted by
`(lev, ham)` ascending (Python's `list.sort` is stable, as is
`insertionSort` with a non-strict relation) and capped to the first
`max_suggestions`. -/
def suggest_candidates (word : String) (lex_keys : List String)
    (max_suggestions : Nat := 5) : List (String × Nat × Option Nat) :=
  let dists := lex_keys.map (fun k =>
    (k, levDistance word k,
      if word.data.length = k.data.length then some (hamming word.data k.data)
      else none))
  (dists.insertionSort (fun a b => keyLe a.2 b.2 = true)).take max_suggestions

/-- Python `str.replace(pat, rep)` on list-of-character contents, fuelled
for structural recursion: replaces every non-overlapping occurrence of
`pat` left to right.  (`pat` is always a non-empty token here; Python's
special behaviour for an empty pattern is not modelled.) -/
def replaceAllFuel : Nat → List Char → List Char → List Char → List Char
  | 0, s, _, _ => s
  | _ + 1, [], _, _ => []
  | f + 1, c :: cs, pat, rep =>
    if pat ≠ [] ∧ pat.isPrefixOf (c :: cs) then
      rep ++ replaceAllFuel f (List.drop pat.length (c :: cs)) pat rep
    else c :: replaceAllFuel f cs pat rep

/-- `content.replace(raw, cand)` (`interactive.py`, line 109). -/
def replaceAll (s pat rep : List Char) : List Char :=
  replaceAllFuel s.length s pat rep

/-- The operator's console answers consumed by one iteration of the
`prompt_user` loop (each prompt is only reached on the corresponding
branch; supplying all answers up front is equivalent). -/
structure OpInput where
  sel : String
  valid : String
  cat : String
  peso : String
  choice : String
  deriving DecidableEq, Repr

/-- The mutable state the `prompt_user` loop acts on: the undefined-word
queue, the three lexicon mappings and the transcript file contents. -/
structure ResolverState where
  undefined : List String
  positivos : Dict
  negativos : Dict
  neutros : Dict
  fileContent : List Char
  deriving DecidableEq, Repr

/-- The `cat == 'p'` branch (`interactive.py`, lines 63-74): parse the
weight, insert into `positivos` and pop the word only when the weight is
in `[1,3]` and the word is not already a positive key. -/
def classifyP (st : ResolverState) (idx : Nat) (word : String)
    (peso : String) : ResolverState :=
  match parseInt peso with
  | some p =>
    if 1 ≤ p ∧ p ≤ 3 ∧ (st.positivos.lookup word).isNone then
      { st with positivos := dinsert st.positivos word p,
                undefined := st.undefined.eraseIdx idx }
    else st
  | none => st

/-- The `cat == 'n'` branch (`interactive.py`, lines 75-86). -/
def classifyN (st : ResolverState) (idx : Nat) (word : String)
    (peso : String) : ResolverState :=
  match parseInt peso with
  | some n =>
    if -3 ≤ n ∧ n ≤ -1 ∧ (st.negativos.lookup word).isNone then
      { st with negativos := dinsert st.negativos word n,
                undefined := st.undefined.eraseIdx idx }
    else st
  | none => st

/-- The `cat == 't'` branch (`interactive.py`, lines 87-93). -/
def classifyT (st : ResolverState) (idx : Nat) (word : String) :
    ResolverState :=
  if (st.neutros.lookup word).isNone then
    { st with neutros := dinsert st.neutros word 0,
              undefined := st.undefined.eraseIdx idx }
  else st

/-- The suggestion branch (`interactive.py`, lines 97-116): on a valid
candidate choice, replace every occurrence of `raw` in the transcript file
with the candidate and pop the word; otherwise leave everything alone. -/
def suggestStep (lex_keys : List String) (st : ResolverState) (idx : Nat)
    (raw word : String) (choiceInput : String) : ResolverState :=
  let cands := suggest_candidates word lex_keys
  let choice := pyStrip choiceInput
  if isdigitStr choice = true ∧ 1 ≤ strToNat choice ∧
      strToNat choice ≤ cands.length then
    let cand := (cands.getD (strToNat choice - 1) ("", 0, none)).1
    { st with fileContent := replaceAll st.fileContent raw.data cand.data,
              undefined := st.undefined.eraseIdx idx }
  else st

/-- One iteration of the `prompt_user` loop (`interactive.py`, lines
44-116).  `lex_keys` is the key union computed once before the loop
(line 42).  An empty selection (the operator ending the session) and every
invalid or rejected path leave the state unchanged; the two success paths
(classification insert, accepted candidate replacement) remove the
selected word from the queue. -/
def prompt_user_step (lex_keys : List String) (st : ResolverState)
    (inp : OpInput) : ResolverState :=
  if pyStrip inp.sel = "" then st
  else if ¬(isdigitStr (pyStrip inp.sel) = true ∧ 1 ≤ strToNat (pyStrip inp.sel) ∧
      strToNat (pyStrip inp.sel) ≤ st.undefined.length) then st
  else
    let idx := strToNat (pyStrip inp.sel) - 1
    let raw := st.undefined.getD idx ""
    let word := strip_accents (pyLower raw)
    if pyLower (pyStrip inp.valid) = "s" then
      let cat := pyLower (pyStrip inp.cat)
      if cat = "p" then classifyP st idx word (pyStrip inp.peso)
      else if cat = "n" then classifyN st idx word (pyStrip inp.peso)
      else if cat = "t" then classifyT st idx word
      else st
    else suggestStep lex_keys st idx raw word inp.choice

/-- Success of the `cat == 'p'` branch: weight parsed, in range, word not
yet a positive key. -/
def classifyPSuccessB (st : ResolverState) (word : String)
    (peso : String) : Bool :=
  match parseInt peso with
  | some p => decide (1 ≤ p ∧ p ≤ 3 ∧ (st.positivos.lookup word).isNone)
  | none => false

/-- Success of the `cat == 'n'` branch. -/
def classifyNSuccessB (st : ResolverState) (word : String)
    (peso : String) : Bool :=
  match parseInt peso with
  | some n => decide (-3 ≤ n ∧ n ≤ -1 ∧ (st.negativos.lookup word).isNone)
  | none => false

/-- Success of the suggestion branch: a valid candidate number chosen. -/
def suggestSuccessB (lex_keys : List String) (word : String)
    (choiceInput : String) : Bool :=
  let cands := suggest_candidates word lex_keys
  let choice := pyStrip choiceInput
  decide (isdigitStr choice = true ∧ 1 ≤ strToNat choice ∧
    strToNat choice ≤ cands.length)

/-- The two strictly successful outcomes of one `prompt_user` iteration:
a valid selection followed by either a valid, non-duplicate classification
insert (weight parsed and in range, word absent from the target category)
or an accepted candidate suggestion. -/
def stepSuccessB (lex_keys : List String) (st : ResolverState)
    (inp : OpInput) : Bool :=
  if pyStrip inp.sel = "" then false
  else if ¬(isdigitStr (pyStrip inp.sel) = true ∧ 1 ≤ strToNat (pyStrip inp.sel) ∧
      strToNat (pyStrip inp.sel) ≤ st.undefined.length) then false
  else
    let idx := strToNat (pyStrip inp.sel) - 1
    let word := strip_accents (pyLower (st.undefined.getD idx ""))
    if pyLower (pyStrip inp.valid) = "s" then
      let cat := pyLower (pyStrip inp.cat)
      if cat = "p" then classifyPSuccessB st word (pyStrip inp.peso)
      else if cat = "n" then classifyNSuccessB st word (pyStrip inp.peso)
      else if cat = "t" then (st.neutros.lookup word).isNone
      else false
    else suggestSuccessB lex_keys word inp.choice

theorem classifyP_fail (st : ResolverState) (idx : Nat) (word peso : String)
    (h : classifyPSuccessB st word peso = false) :
    classifyP st idx word peso = st := by
  unfold classifyP classifyPSuccessB at *
  split at h
  · simp only [decide_eq_false_iff_not] at h
    rw [if_neg h]
  · rfl

theorem classifyP_success (st : ResolverState) (idx : Nat) (word peso : String)
    (h : classifyPSuccessB st word peso = true) :
    (classifyP st idx word peso).undefined = st.undefined.eraseIdx idx := by
  unfold classifyP classifyPSuccessB at *
  split at h
  · simp only [decide_eq_true_eq] at h
    rw [if_pos h]
  · exact absurd h (by simp)

theorem classifyN_fail (st : ResolverState) (idx : Nat) (word peso : String)
    (h : classifyNSuccessB st word peso = false) :
    classifyN st idx word peso = st := by
  unfold classifyN classifyNSuccessB at *
  split at h
  · simp only [decide_eq_false_iff_not] at h
    rw [if_neg h]
  · rfl

theorem classifyN_success (st : ResolverState) (idx : Nat) (word peso : String)
    (h : classifyNSuccessB st word peso = true) :
    (classifyN st idx word peso).undefined = st.undefined.eraseIdx idx := by
  unfold classifyN classifyNSuccessB at *
  split at h
  · simp only [decide_eq_true_eq] at h
    rw [if_pos h]
  · exact absurd h (by simp)

theorem classifyT_fail (st : ResolverState) (idx : Nat) (word : String)
    (h : (st.neutros.lookup word).isNone = false) :
    classifyT st idx word = st := by
  unfold classifyT
  rw [if_neg (by simp [h])]

theorem classifyT_success (st : ResolverState) (idx : Nat) (word : String)
    (h : (st.neutros.lookup word).isNone = true) :
    (classifyT st idx word).undefined = st.undefined.eraseIdx idx := by
  unfold classifyT
  rw [if_pos (by simp [h])]

theorem suggestStep_fail (K : List String) (st : ResolverState) (idx : Nat)
    (raw word choiceInput : String)
    (h : suggestSuccessB K word choiceInput = false) :
    suggestStep K st idx raw word choiceInput = st := by
  unfold suggestStep
  unfold suggestSuccessB at h
  simp only [decide_eq_false_iff_not] at h
  rw [if_neg h]

theorem suggestStep_success (K : List String) (st : ResolverState) (idx : Nat)
    (raw word choiceInput : String)
    (h : suggestSuccessB K word choiceInput = true) :
    (suggestStep K st idx raw word choiceInput).undefined =
      st.undefined.eraseIdx idx := by
  unfold suggestStep
  unfold suggestSuccessB at h
  simp only [decide_eq_true_eq] at h
  rw [if_pos h]

/-- C2: in one iteration of the Resolver loop, every non-success path
(empty or invalid selection, invalid category letter, unparsable or
out-of-range weight, duplicate rejection, omitted or invalid suggestion
choice) leaves the queue, the three lexicon mappings and the transcript
file exactly unchanged, and on the two success paths the selected word is
removed from the queue. -/
theorem resolver_queue_safety (K : List String) (st : ResolverState)
    (inp : OpInput) :
    (stepSuccessB K st inp = false → prompt_user_step K st inp = st)
    ∧ (stepSuccessB K st inp = true →
        (prompt_user_step K st inp).undefined =
          st.undefined.eraseIdx (strToNat (pyStrip inp.sel) - 1)) := by
  by_cases h1 : pyStrip inp.sel = ""
  · refine ⟨fun _ => ?_, fun h => ?_⟩
    · unfold prompt_user_step
      rw [if_pos h1]
    · unfold stepSuccessB at h
      rw [if_pos h1] at h
      exact absurd h (by simp)
  by_cases h2 : isdigitStr (pyStrip inp.sel) = true ∧
      1 ≤ strToNat (pyStrip inp.sel) ∧
      strToNat (pyStrip inp.sel) ≤ st.undefined.length
  case neg =>
    refine ⟨fun _ => ?_, fun h => ?_⟩
    · unfold prompt_user_step
      rw [if_neg h1, if_pos h2]
    · unfold stepSuccessB at h
      rw [if_neg h1, if_pos h2] at h
      exact absurd h (by simp)
  have hstep : prompt_user_step K st inp =
      (if pyLower (pyStrip inp.valid) = "s" then
        if pyLower (pyStrip inp.cat) = "p" then
          classifyP st (strToNat (pyStrip inp.sel) - 1)
            (strip_accents (pyLower
              (st.undefined.getD (strToNat (pyStrip inp.sel) - 1) "")))
            (pyStrip inp.peso)
        else if pyLower (pyStrip inp.cat) = "n" then
          classifyN st (strToNat (pyStrip inp.sel) - 1)
            (strip_accents (pyLower
              (st.undefined.getD (strToNat (pyStrip inp.sel) - 1) "")))
            (pyStrip inp.peso)
        else if pyLower (pyStrip inp.cat) = "t" then
          classifyT st (strToNat (pyStrip inp.sel) - 1)
            (strip_accents (pyLower
              (st.undefined.getD (strToNat (pyStrip inp.sel) - 1) "")))
        else st
      else suggestStep K st (strToNat (pyStrip inp.sel) - 1)
        (st.undefined.getD (strToNat (pyStrip inp.sel) - 1) "")
        (strip_accents (pyLower
          (st.undefined.getD (strToNat (pyStrip inp.sel) - 1) "")))
        inp.choice) := by
    unfold prompt_user_step
    rw [if_neg h1, if_neg (not_not_intro h2)]
  have hsucc : stepSuccessB K st inp =
      (if pyLower (pyStrip inp.valid) = "s" then
        if pyLower (pyStrip inp.cat) = "p" then
          classifyPSuccessB st
            (strip_accents (pyLower
              (st.undefined.getD (strToNat (pyStrip inp.sel) - 1) "")))
            (pyStrip inp.peso)
        else if pyLower (pyStrip inp.cat) = "n" then
          classifyNSuccessB st
            (strip_accents (pyLower
              (st.undefined.getD (strToNat (pyStrip inp.sel) - 1) "")))
            (pyStrip inp.peso)
        else if pyLower (pyStrip inp.cat) = "t" then
          (st.neutros.lookup (strip_accents (pyLower
            (st.undefined.getD (strToNat (pyStrip inp.sel) - 1) "")))).isNone
        else false
      else suggestSuccessB K
        (strip_accents (pyLower
          (st.undefined.getD (strToNat (pyStrip inp.sel) - 1) "")))
        inp.choice) := by
    unfold stepSuccessB
    rw [if_neg h1, if_neg (not_not_intro h2)]
  rw [hstep, hsucc]
  by_cases h3 : pyLower (pyStrip inp.valid) = "s"
  · rw [if_pos h3, if_pos h3]
    by_cases h4 : pyLower (pyStrip inp.cat) = "p"
    · rw [if_pos h4, if_pos h4]
      exact ⟨classifyP_fail st _ _ _, classifyP_success st _ _ _⟩
    rw [if_neg h4, if_neg h4]
    by_cases h5 : pyLower (pyStrip inp.cat) = "n"
    · rw [if_pos h5, if_pos h5]
      exact ⟨classifyN_fail st _ _ _, classifyN_success st _ _ _⟩
    rw [if_neg h5, if_neg h5]
    by_cases h6 : pyLower (pyStrip inp.cat) = "t"
    · rw [if_pos h6, if_pos h6]
      exact ⟨classifyT_fail st _ _, classifyT_success st _ _⟩
    rw [if_neg h6, if_neg h6]
    exact ⟨fun _ => rfl, fun h => absurd h (by simp)⟩
  · rw [if_neg h3, if_neg h3]
    exact ⟨suggestStep_fail K st _ _ _ _, suggestStep_success K st _ _ _ _⟩

/-- Closed instance of the queue-safety theorem: an out-of-range weight
leaves the state untouched, and a successful neutral classification
removes the word from the queue. -/
theorem resolver_queue_safety_witness :
    prompt_user_step [] ⟨["malo"], [], [], [], []⟩ ⟨"1", "s", "p", "7", ""⟩
      = ⟨["malo"], [], [], [], []⟩
    ∧ (prompt_user_step [] ⟨["malo"], [], [], [], []⟩
        ⟨"1", "s", "t", "", ""⟩).undefined = [] :=
  ⟨(resolver_queue_safety [] ⟨["malo"], [], [], [], []⟩
      ⟨"1", "s", "p", "7", ""⟩).1 (by decide),
   by
    have h := (resolver_queue_safety [] ⟨["malo"], [], [], [], []⟩
      ⟨"1", "s", "t", "", ""⟩).2 (by decide)
    simpa using h⟩

/-- C1 counterexample: with `"bueno"` already a key of `positivos`,
classifying it as Negative with weight `-2` *does* insert it into
`negativos` and removes it from the queue — the duplicate check at
`interactive.py` line 79 only consults the target category (`word not in
negativos`), not all three. -/
theorem resolver_cross_category_insert :
    ((⟨["bueno"], [("bueno", 2)], [], [], []⟩ :
        ResolverState).positivos.lookup "bueno").isSome = true
    ∧ (prompt_user_step [] ⟨["bueno"], [("bueno", 2)], [], [], []⟩
        ⟨"1", "s", "n", "-2", ""⟩).negativos = [("bueno", -2)]
    ∧ (prompt_user_step [] ⟨["bueno"], [("bueno", 2)], [], [], []⟩
        ⟨"1", "s", "n", "-2", ""⟩).undefined = [] := by decide

/-- C1 (amended): the Resolver's classification step rejects an insertion
only when the selected word is already present in the **target** category;
in that case the word stays in the queue and no lexicon mapping or file
content changes.  (Presence in a *different* category does not prevent
insertion, as the counterexample shows.) -/
theorem resolver_duplicate_target_rejected (K : List String)
    (st : ResolverState) (inp : OpInput)
    (h1 : pyStrip inp.sel ≠ "")
    (h2 : isdigitStr (pyStrip inp.sel) = true ∧
      1 ≤ strToNat (pyStrip inp.sel) ∧
      strToNat (pyStrip inp.sel) ≤ st.undefined.length)
    (h3 : pyLower (pyStrip inp.valid) = "s") :
    (pyLower (pyStrip inp.cat) = "p" →
      (st.positivos.lookup (strip_accents (pyLower
        (st.undefined.getD (strToNat (pyStrip inp.sel) - 1) "")))).isSome = true →
      prompt_user_step K st inp = st)
    ∧ (pyLower (pyStrip inp.cat) = "n" →
      (st.negativos.lookup (strip_accents (pyLower
        (st.undefined.getD (strToNat (pyStrip inp.sel) - 1) "")))).isSome = true →
      prompt_user_step K st inp = st)
    ∧ (pyLower (pyStrip inp.cat) = "t" →
      (st.neutros.lookup (strip_accents (pyLower
        (st.undefined.getD (strToNat (pyStrip inp.sel) - 1) "")))).isSome = true →
      prompt_user_step K st inp = st) := by
  have hstep : prompt_user_step K st inp =
      (if pyLower (pyStrip inp.cat) = "p" then
        classifyP st (strToNat (pyStrip inp.sel) - 1)
          (strip_accents (pyLower
            (st.undefined.getD (strToNat (pyStrip inp.sel) - 1) "")))
          (pyStrip inp.peso)
      else if pyLower (pyStrip inp.cat) = "n" then
        classifyN st (strToNat (pyStrip inp.sel) - 1)
          (strip_accents (pyLower
            (st.undefined.getD (strToNat (pyStrip inp.sel) - 1) "")))
          (pyStrip inp.peso)
      else if pyLower (pyStrip inp.cat) = "t" then
        classifyT st (strToNat (pyStrip inp.sel) - 1)
          (strip_accents (pyLower
            (st.undefined.getD (strToNat (pyStrip inp.sel) - 1) "")))
      else st) := by
    unfold prompt_user_step
    rw [if_neg h1, if_neg (not_not_intro h2), if_pos h3]
  refine ⟨fun h4 hdup => ?_, fun h4 hdup => ?_, fun h4 hdup => ?_⟩
  · rw [hstep, if_pos h4]
    obtain ⟨v, hv⟩ := Option.isSome_iff_exists.mp hdup
    unfold classifyP
    split
    · rw [if_neg (by intro hc; rw [hv] at hc; simp at hc)]
    · rfl
  · rw [hstep, if_neg (by rw [h4]; decide), if_pos h4]
    obtain ⟨v, hv⟩ := Option.isSome_iff_exists.mp hdup
    unfold classifyN
    split
    · rw [if_neg (by intro hc; rw [hv] at hc; simp at hc)]
    · rfl
  · rw [hstep, if_neg (by rw [h4]; decide), if_neg (by rw [h4]; decide),
      if_pos h4]
    obtain ⟨v, hv⟩ := Option.isSome_iff_exists.mp hdup
    unfold classifyT
    rw [if_neg (by intro hc; rw [hv] at hc; simp at hc)]

/-- Closed instance of the target-duplicate rejection: `"malo"` is already
a negative key, so classifying it again as Negative changes nothing. -/
theorem resolver_duplicate_target_rejected_witness :
    prompt_user_step [] ⟨["malo"], [], [("malo", -1)], [], []⟩
      ⟨"1", "s", "n", "-2", ""⟩ = ⟨["malo"], [], [("malo", -1)], [], []⟩ :=
  (resolver_duplicate_target_rejected []
    ⟨["malo"], [], [("malo", -1)], [], []⟩ ⟨"1", "s", "n", "-2", ""⟩
    (by decide) (by decide) (by decide)).2.1 (by decide) (by decide)

/-- C8: when the operator answers that the word is not a valid lexeme and
accepts candidate number `choice`, the step rewrites the whole transcript
content by replacing every literal occurrence of the original queue entry
(exact original form, not token-bounded) with the chosen candidate, and
removes the word from the queue; nothing else in the state changes. -/
theorem resolver_replacement (K : List String) (st : ResolverState)
    (inp : OpInput)
    (h1 : pyStrip inp.sel ≠ "")
    (h2 : isdigitStr (pyStrip inp.sel) = true ∧
      1 ≤ strToNat (pyStrip inp.sel) ∧
      strToNat (pyStrip inp.sel) ≤ st.undefined.length)
    (h3 : ¬ pyLower (pyStrip inp.valid) = "s")
    (h4 : isdigitStr (pyStrip inp.choice) = true ∧
      1 ≤ strToNat (pyStrip inp.choice) ∧
      strToNat (pyStrip inp.choice) ≤ (suggest_candidates (strip_accents (pyLower
        (st.undefined.getD (strToNat (pyStrip inp.sel) - 1) ""))) K).length) :
    prompt_user_step K st inp =
      { st with
        fileContent := replaceAll st.fileContent
          (st.undefined.getD (strToNat (pyStrip inp.sel) - 1) "").data
          (((suggest_candidates (strip_accents (pyLower
            (st.undefined.getD (strToNat (pyStrip inp.sel) - 1) ""))) K).getD
            (strToNat (pyStrip inp.choice) - 1) ("", 0, none)).1.data),
        undefined := st.undefined.eraseIdx (strToNat (pyStrip inp.sel) - 1) } := by
  unfold prompt_user_step
  rw [if_neg h1, if_neg (not_not_intro h2), if_neg h3]
  unfold suggestStep
  rw [if_pos h4]

/-- Closed instance of the replacement theorem, exhibiting the spec's
scenario: accepting `"gracias"` for undefined `"grasias"` replaces both
occurrences in the file — including the one embedded in `"grasiasx"`,
showing the replacement is literal, not token-bounded — and empties the
queue. -/
theorem resolver_replacement_witness :
    (prompt_user_step ["gracias", "hola"]
      ⟨["grasias"], [], [], [], "di grasias y grasiasx".data⟩
      ⟨"1", "n", "", "", "1"⟩).fileContent = "di gracias y graciasx".data
    ∧ (prompt_user_step ["gracias", "hola"]
      ⟨["grasias"], [], [], [], "di grasias y grasiasx".data⟩
      ⟨"1", "n", "", "", "1"⟩).undefined = [] := by
  have h := resolver_replacement ["gracias", "hola"]
    ⟨["grasias"], [], [], [], "di grasias y grasiasx".data⟩
    ⟨"1", "n", "", "", "1"⟩ (by decide) (by decide) (by decide) (by decide)
  rw [h]
  exact ⟨by decide, by decide⟩

example : levDistance "grasias" "gracias" = 1 := by decide

example : hamming "grasias".data "gracias".data = 1 := by decide

example :
    replaceAll "di grasias y grasiasx".data "grasias".data "gracias".data =
      "di gracias y graciasx".data := by decide

example :
    (suggest_candidates "grasias" ["hola", "gracias", "adios"]).headD
      ("", 0, none) = ("gracias", 1, some 1) := by decide

/-- Python's `\w` word character (ASCII letters, digits, underscore; the
classifier only matches over lowercased diacritic-stripped text). -/
def isWordChar (c : Char) : Bool := c.isAlphanum || c = '_'

/-- A word boundary `\b` holds between two (optional) characters when
exactly one of them is a word character. -/
def isBoundary (prev next : Option Char) : Bool :=
  xor
    (match prev with | some c => isWordChar c | none => false)
    (match next with | some c => isWordChar c | none => false)

/-- One-character regex atoms used by the protocol patterns: a literal
character or a character class such as `[oa]`. -/
inductive Atom where
  | lit (c : Char)
  | cls (cs : List Char)

/-- The regex constructs the greeting/farewell patterns use: an atom, an
optional atom (`s?`, `¿?`) and the word boundary `\b`. -/
inductive RE where
  | atom (a : Atom)
  | opt (a : Atom)
  | bound

def atomMatch (a : Atom) (c : Char) : Bool :=
  match a with
  | .lit d => d = c
  | .cls cs => cs.contains c

/-- Matches a pattern against the front of `s`; `prev` is the character
just before the current position (for `\b`).  The `opt` case tries the
atom first and backtracks, exactly as the regex engine's greedy `?`. -/
def matchAt : List RE → Option Char → List Char → Bool
  | [], _, _ => true
  | .atom a :: ps, _, c :: cs => atomMatch a c && matchAt ps (some c) cs
  | .atom _ :: _, _, [] => false
  | .opt a :: ps, prev, c :: cs =>
    (atomMatch a c && matchAt ps (some c) cs) || matchAt ps prev (c :: cs)
  | .opt _ :: ps, prev, [] => matchAt ps prev []
  | .bound :: ps, prev, s => isBoundary prev s.head? && matchAt ps prev s

/-- Tries every start position left to right. -/
def searchFrom (p : List RE) : Option Char → List Char → Bool
  | prev, [] => matchAt p prev []
  | prev, c :: cs => matchAt p prev (c :: cs) || searchFrom p (some c) cs

/-- `re.search(p, s)` as a Boolean: does `p` match anywhere in `s`? -/
def re_search (p : List RE) (s : String) : Bool := searchFrom p none s.data

/-- A sequence of literal atoms, one per character. -/
def lits (s : String) : List RE := s.data.map (fun c => RE.atom (Atom.lit c))

/-- A `\b...\b`-delimited literal pattern. -/
def wb (s : String) : List RE := RE.bound :: (lits s ++ [RE.bound])

/-- A literal pattern with only a trailing `\b` (the farewell patterns
have no leading boundary in the source). -/
def wbe (s : String) : List RE := lits s ++ [RE.bound]

/-- `SALUDOS` (`analysis.py`, lines 36-69), transcribed pattern by
pattern. -/
def SALUDOS : List (List RE) := [
  wb "hola",
  RE.bound :: (lits "buen" ++
    [RE.atom (Atom.cls ['o', 'a']), RE.opt (Atom.lit 's'), RE.bound]),
  wb "buenos dias",
  wb "buenas tardes",
  wb "buenas noches",
  wb "feliz dia",
  wb "feliz jornada",
  RE.bound :: (lits "estimad" ++
    [RE.atom (Atom.cls ['a', 'o']), RE.opt (Atom.lit 's'), RE.bound]),
  wb "saludos cordiales",
  RE.bound :: (lits "bienvenid" ++
    [RE.atom (Atom.cls ['o', 'a']), RE.opt (Atom.lit 's'), RE.bound]),
  wb "gracias por llamar",
  wb "gracias por contactar",
  wb "gracias por comunicarse",
  wb "gracias por elegirnos",
  wb "gracias por su preferencia",
  wb "les saluda",
  wb "esta es la linea de",
  wb "línea de atencion",
  wb "es un placer atenderle",
  wb "mucho gusto en atenderle",
  wb "en que puedo ayudarle",
  wb "como puedo ayudarle",
  wb "en que le podemos ayudar",
  RE.bound :: RE.opt (Atom.lit '¿') :: (lits "en que puedo asistirle" ++ [RE.bound]),
  RE.bound :: RE.opt (Atom.lit '¿') :: (lits "en que le puedo servir" ++ [RE.bound]),
  wb "que tal",
  wb "qué tal",
  wb "holas"]

/-- `DESPEDIDAS` (`analysis.py`, lines 120-148), transcribed pattern by
pattern (these have no leading `\b` in the source). -/
def DESPEDIDAS : List (List RE) := [
  wbe "gracias por su tiempo",
  wbe "gracias por llamar al servicio de atencion al cliente",
  wbe "gracias por contactar con nosotros",
  wbe "gracias por comunicarse con nosotros",
  wbe "gracias por elegirnos",
  wbe "muchas gracias",
  wbe "muchas gracias por su preferencia",
  wbe "ha sido un placer atenderle",
  wbe "estamos a su disposicion",
  wbe "quedo a sus ordenes",
  wbe "quedo a su disposicion",
  wbe "no dude en contactarnos",
  wbe "hasta luego",
  wbe "hasta pronto",
  wbe "hasta la proxima",
  wbe "hasta manana",
  wbe "hasta mañana",
  wbe "nos vemos",
  wbe "nos mantenemos en contacto",
  wbe "que tenga un buen dia",
  wbe "que tenga un excelente dia",
  wbe "le deseamos un buen dia",
  wbe "que disfrute el resto de su dia",
  wbe "que pase un buen dia",
  wbe "feliz dia",
  wbe "adios",
  wbe "adiós"]

/-- Python `str.splitlines` (for the terminators that occur in transcript
text: `\n`, `\r\n`, `\r`); no empty trailing line is produced. -/
def splitLinesGo : List Char → List Char → List (List Char)
  | [], acc => if acc.isEmpty then [] else [acc.reverse]
  | '\r' :: '\n' :: rest, acc => acc.reverse :: splitLinesGo rest []
  | '\n' :: rest, acc => acc.reverse :: splitLinesGo rest []
  | '\r' :: rest, acc => acc.reverse :: splitLinesGo rest []
  | c :: rest, acc => splitLinesGo rest (c :: acc)

def splitLines (s : String) : List String :=
  (splitLinesGo s.data []).map (fun l => ⟨l⟩)

/-- `analysis.py` lines 231-232: normalize the whole text, split into
lines, strip each, keep the non-empty ones. -/
def protoLines (text : String) : List String :=
  ((splitLines (strip_accents (pyLower text))).map pyStrip).filter
    (fun l => l ≠ "")

/-- The `(saludo_ok, desp_ok)` projections of `analiza_protocolo`
(`analysis.py`, lines 223-241): a greeting pattern searched in the first
non-empty stripped line, a farewell pattern searched in the last one
(`identification` and `rude words`, which scan the full text, are not
modelled — no claim concerns them). -/
def analiza_protocolo_flags (text : String) : Bool × Bool :=
  let lines := protoLines text
  let first := lines.headD ""
  let last := lines.getLastD ""
  (SALUDOS.any (fun p => re_search p first),
   DESPEDIDAS.any (fun p => re_search p last))

example :
    analiza_protocolo_flags
      "Hola, buenas tardes.\nEl servicio fue excelente.\nMuchas gracias por su tiempo." =
    (true, true) := by decide

example :
    analiza_protocolo_flags "ayer\nhola buenas tardes\nfin" = (false, false) := by
  decide

/-- C3: for every token sequence and lexicon, the Scorer's total is the sum
of the weights of the positive hits plus the sum of the weights of the
negative hits; the neutral lexicon never changes the total; and the empty
token sequence yields all-zero counts, weights and total with empty hit
lists. -/
theorem scorer_total_spec (words : List String) (P N T Tt : Dict) :
    (analiza_sentimiento words P N T).total =
        ((analiza_sentimiento words P N T).pos_words.map
          (fun w => weightIn P w)).sum +
        ((analiza_sentimiento words P N T).neg_words.map
          (fun w => weightIn N w)).sum
    ∧ (analiza_sentimiento words P N Tt).total =
        (analiza_sentimiento words P N T).total
    ∧ analiza_sentimiento [] P N T =
        ⟨0, 0, [], [], 0, 0, [], [], 0, 0, []⟩ := by
  refine ⟨?_, ?_, rfl⟩
  · show (categorize P N T words).total =
      ((((categorize P N T words).pos_list.map Prod.fst).map
        (fun w => weightIn P w)).sum : Int) +
      (((categorize P N T words).neg_list.map Prod.fst).map
        (fun w => weightIn N w)).sum
    rw [categorize_total, categorize_pos_list, categorize_neg_list]
    simp [List.map_map, Function.comp_def]
  · show (categorize P N Tt words).total = (categorize P N T words).total
    rw [categorize_total, categorize_total, categorize_pos_list,
      categorize_neg_list, categorize_pos_list, categorize_neg_list]

/-- C10: the Scorer counts each token under at most one category, with
lookup precedence Positive, then Negative, then Neutral — a token found in
`positivos` is counted positive regardless of the other two mappings, a
token found in `negativos` but not `positivos` is counted negative even
when it is also in `neutros`, and a token reaches `neutros` only when
absent from both others. -/
theorem scorer_precedence (words : List String) (P N T : Dict) :
    (analiza_sentimiento words P N T).pos_words =
        words.filter (fun w => (P.lookup w).isSome)
    ∧ (analiza_sentimiento words P N T).neg_words =
        words.filter (fun w => (P.lookup w).isNone && (N.lookup w).isSome)
    ∧ (analiza_sentimiento words P N T).neut_words =
        words.filter (fun w =>
          (P.lookup w).isNone && (N.lookup w).isNone && (T.lookup w).isSome) := by
  refine ⟨?_, ?_, ?_⟩
  · show (categorize P N T words).pos_list.map Prod.fst = _
    rw [categorize_pos_list]
    simp [List.map_map, Function.comp_def]
  · show (categorize P N T words).neg_list.map Prod.fst = _
    rw [categorize_neg_list]
    simp [List.map_map, Function.comp_def]
  · show (categorize P N T words).neut_list = _
    rw [categorize_neut_list]

theorem topPos_weight_mem (l : List (String × Int)) (h : l ≠ []) :
    (topPos l).1 ∈ l.map Prod.snd := by
  obtain ⟨a, t, rfl⟩ := List.exists_cons_of_ne_nil h
  exact listMaxD_mem _ (by simp)

theorem topPos_weight_ge (l : List (String × Int)) (x : String × Int)
    (hx : x ∈ l) : x.2 ≤ (topPos l).1 := by
  rcases l with _ | ⟨a, t⟩
  · simp at hx
  · exact listMaxD_le _ x.2 (List.mem_map_of_mem Prod.snd hx)

theorem topPos_words_eq (l : List (String × Int)) :
    (topPos l).2 = (l.filter (fun x => x.2 = (topPos l).1)).map Prod.fst := by
  rcases l with _ | ⟨a, t⟩ <;> rfl

theorem topNeg_weight_mem (l : List (String × Int)) (h : l ≠ []) :
    (topNeg l).1 ∈ l.map Prod.snd := by
  obtain ⟨a, t, rfl⟩ := List.exists_cons_of_ne_nil h
  exact listMinD_mem _ (by simp)

theorem topNeg_weight_le (l : List (String × Int)) (x : String × Int)
    (hx : x ∈ l) : (topNeg l).1 ≤ x.2 := by
  rcases l with _ | ⟨a, t⟩
  · simp at hx
  · exact listMinD_le _ x.2 (List.mem_map_of_mem Prod.snd hx)

theorem topNeg_words_eq (l : List (String × Int)) :
    (topNeg l).2 = (l.filter (fun x => x.2 = (topNeg l).1)).map Prod.fst := by
  rcases l with _ | ⟨a, t⟩ <;> rfl

/-- C4: when the positive hit list is non-empty, `top_pos_weight` is the
maximum weight among the positive hits and `top_pos_words` is exactly the
list of positive hits whose weight attains it (ties inclusive); when the
hit list is empty the weight is 0 and the word list empty; symmetrically
for the negative side with the minimum. -/
theorem scorer_top_spec (words : List String) (P N T : Dict) :
    ((analiza_sentimiento words P N T).pos_words ≠ [] →
      (analiza_sentimiento words P N T).top_pos_weight ∈
          (analiza_sentimiento words P N T).pos_words.map (fun w => weightIn P w)
      ∧ ∀ w ∈ (analiza_sentimiento words P N T).pos_words,
          weightIn P w ≤ (analiza_sentimiento words P N T).top_pos_weight)
    ∧ (analiza_sentimiento words P N T).top_pos_words =
        (analiza_sentimiento words P N T).pos_words.filter
          (fun w => weightIn P w = (analiza_sentimiento words P N T).top_pos_weight)
    ∧ ((analiza_sentimiento words P N T).pos_words = [] →
        (analiza_sentimiento words P N T).top_pos_weight = 0
        ∧ (analiza_sentimiento words P N T).top_pos_words = [])
    ∧ ((analiza_sentimiento words P N T).neg_words ≠ [] →
      (analiza_sentimiento words P N T).top_neg_weight ∈
          (analiza_sentimiento words P N T).neg_words.map (fun w => weightIn N w)
      ∧ ∀ w ∈ (analiza_sentimiento words P N T).neg_words,
          (analiza_sentimiento words P N T).top_neg_weight ≤ weightIn N w)
    ∧ (analiza_sentimiento words P N T).top_neg_words =
        (analiza_sentimiento words P N T).neg_words.filter
          (fun w => weightIn N w = (analiza_sentimiento words P N T).top_neg_weight)
    ∧ ((analiza_sentimiento words P N T).neg_words = [] →
        (analiza_sentimiento words P N T).top_neg_weight = 0
        ∧ (analiza_sentimiento words P N T).top_neg_words = []) := by
  have hP := categorize_pos_list P N T words
  have hN := categorize_neg_list P N T words
  have hpw : (analiza_sentimiento words P N T).pos_words
      = (categorize P N T words).pos_list.map Prod.fst := rfl
  have hnw : (analiza_sentimiento words P N T).neg_words
      = (categorize P N T words).neg_list.map Prod.fst := rfl
  have htpw : (analiza_sentimiento words P N T).top_pos_weight
      = (topPos (categorize P N T words).pos_list).1 := rfl
  have htpws : (analiza_sentimiento words P N T).top_pos_words
      = (topPos (categorize P N T words).pos_list).2 := rfl
  have htnw : (analiza_sentimiento words P N T).top_neg_weight
      = (topNeg (categorize P N T words).neg_list).1 := rfl
  have htnws : (analiza_sentimiento words P N T).top_neg_words
      = (topNeg (categorize P N T words).neg_list).2 := rfl
  refine ⟨?_, ?_, ?_, ?_, ?_, ?_⟩
  · intro hne
    have hl : (categorize P N T words).pos_list ≠ [] := by
      intro h
      rw [hpw, h] at hne
      exact hne rfl
    constructor
    · rw [htpw, hpw]
      have hmm := topPos_weight_mem _ hl
      rw [hP] at hmm ⊢
      simpa [List.map_map, Function.comp_def] using hmm
    · intro w hw
      rw [htpw]
      rw [hpw, hP] at hw
      simp only [List.map_map, Function.comp_def, List.mem_map] at hw
      obtain ⟨x, hx, rfl⟩ := hw
      have hmem : (x, weightIn P x) ∈ (categorize P N T words).pos_list := by
        rw [hP]
        exact List.mem_map_of_mem _ hx
      exact topPos_weight_ge _ _ hmem
  · rw [htpws, htpw, hpw, topPos_words_eq, hP]
    simp [List.filter_map, List.map_map, Function.comp_def]
  · intro hws
    have hl : (categorize P N T words).pos_list = [] := by
      rw [hpw] at hws
      simpa using hws
    rw [htpw, htpws, hl]
    exact ⟨rfl, rfl⟩
  · intro hne
    have hl : (categorize P N T words).neg_list ≠ [] := by
      intro h
      rw [hnw, h] at hne
      exact hne rfl
    constructor
    · rw [htnw, hnw]
      have hmm := topNeg_weight_mem _ hl
      rw [hN] at hmm ⊢
      simpa [List.map_map, Function.comp_def] using hmm
    · intro w hw
      rw [htnw]
      rw [hnw, hN] at hw
      simp only [List.map_map, Function.comp_def, List.mem_map] at hw
      obtain ⟨x, hx, rfl⟩ := hw
      have hmem : (x, weightIn N x) ∈ (categorize P N T words).neg_list := by
        rw [hN]
        exact List.mem_map_of_mem _ hx
      exact topNeg_weight_le _ _ hmem
  · rw [htnws, htnw, hnw, topNeg_words_eq, hN]
    simp [List.filter_map, List.map_map, Function.comp_def]
  · intro hws
    have hl : (categorize P N T words).neg_list = [] := by
      rw [hnw] at hws
      simpa using hws
    rw [htnw, htnws, hl]
    exact ⟨rfl, rfl⟩

/-- C5: `greeting_ok` holds iff some greeting pattern matches the first
non-empty stripped line of the normalized text, and `farewell_ok` holds
iff some farewell pattern matches the last one — so a pattern occurring
only in a middle line sets neither flag — and a text with no non-empty
lines yields both flags false. -/
theorem protocolo_line_restriction (text : String) :
    ((analiza_protocolo_flags text).1 = true ↔
      ∃ p ∈ SALUDOS, re_search p ((protoLines text).headD "") = true)
    ∧ ((analiza_protocolo_flags text).2 = true ↔
      ∃ p ∈ DESPEDIDAS, re_search p ((protoLines text).getLastD "") = true)
    ∧ (protoLines text = [] →
        (analiza_protocolo_flags text).1 = false
        ∧ (analiza_protocolo_flags text).2 = false) := by
  refine ⟨?_, ?_, ?_⟩
  · show (SALUDOS.any fun p => re_search p ((protoLines text).headD "")) = true ↔ _
    simp [List.any_eq_true]
  · show (DESPEDIDAS.any fun p => re_search p ((protoLines text).getLastD "")) = true ↔ _
    simp [List.any_eq_true]
  · intro h
    have h1 : (protoLines text).headD "" = "" := by rw [h]; rfl
    have h2 : (protoLines text).getLastD "" = "" := by rw [h]; rfl
    constructor
    · show (SALUDOS.any fun p => re_search p ((protoLines text).headD "")) = false
      rw [h1]
      decide
    · show (DESPEDIDAS.any fun p => re_search p ((protoLines text).getLastD "")) = false
      rw [h2]
      decide

/-- Closed instance of the extrema theorem: with two positive words tied
at the maximum weight and one negative hit, the reported top weights occur
among the hit weights. -/
theorem scorer_top_spec_witness :
    (analiza_sentimiento ["excelente", "bueno", "malo"]
      [("excelente", 3), ("bueno", 3)] [("malo", -2)] []).top_pos_weight ∈
      (analiza_sentimiento ["excelente", "bueno", "malo"]
        [("excelente", 3), ("bueno", 3)] [("malo", -2)] []).pos_words.map
        (fun w => weightIn [("excelente", 3), ("bueno", 3)] w)
    ∧ (analiza_sentimiento ["excelente", "bueno", "malo"]
        [("excelente", 3), ("bueno", 3)] [("malo", -2)] []).top_neg_weight ∈
      (analiza_sentimiento ["excelente", "bueno", "malo"]
        [("excelente", 3), ("bueno", 3)] [("malo", -2)] []).neg_words.map
        (fun w => weightIn [("malo", -2)] w) :=
  ⟨((scorer_top_spec ["excelente", "bueno", "malo"]
      [("excelente", 3), ("bueno", 3)] [("malo", -2)] []).1 (by decide)).1,
   ((scorer_top_spec ["excelente", "bueno", "malo"]
      [("excelente", 3), ("bueno", 3)] [("malo", -2)] []).2.2.2.1 (by decide)).1⟩

/-- Closed instance of the line-restriction theorem: a text consisting of
whitespace-only lines has no non-empty line, so both flags are false. -/
theorem protocolo_line_restriction_witness :
    (analiza_protocolo_flags "\n \n").1 = false
    ∧ (analiza_protocolo_flags "\n \n").2 = false :=
  (protocolo_line_restriction "\n \n").2.2 (by decide)

theorem strLeB_total (a b : List Char) :
    strLeB a b = true ∨ strLeB b a = true := by
  induction a generalizing b with
  | nil => exact Or.inl rfl
  | cons x xs ih =>
    cases b with
    | nil => exact Or.inr rfl
    | cons y ys =>
      by_cases h1 : x.toNat < y.toNat
      · exact Or.inl (by simp [strLeB, h1])
      · by_cases h2 : y.toNat < x.toNat
        · exact Or.inr (by simp [strLeB, h2])
        · rcases ih ys with h | h
          · exact Or.inl (by simp [strLeB, h1, h2, h])
          · exact Or.inr (by simp [strLeB, h1, h2, h])

theorem strLeB_trans (a b c : List Char) (h1 : strLeB a b = true)
    (h2 : strLeB b c = true) : strLeB a c = true := by
  induction a generalizing b c with
  | nil => rfl
  | cons x xs ih =>
    cases b with
    | nil => simp [strLeB] at h1
    | cons y ys =>
      cases c with
      | nil => simp [strLeB] at h2
      | cons z zs =>
        by_cases hxy : x.toNat < y.toNat
        · by_cases hyz : y.toNat < z.toNat
          · simp [strLeB, lt_trans hxy hyz]
          · by_cases hzy : z.toNat < y.toNat
            · simp [strLeB, hyz, hzy] at h2
            · have he : y.toNat = z.toNat :=
                Nat.le_antisymm (Nat.not_lt.mp hzy) (Nat.not_lt.mp hyz)
              simp [strLeB, he ▸ hxy]
        · by_cases hyx : y.toNat < x.toNat
          · simp [strLeB, hxy, hyx] at h1
          · have hxy' : x.toNat = y.toNat :=
              Nat.le_antisymm (Nat.not_lt.mp hyx) (Nat.not_lt.mp hxy)
            have h1' : strLeB xs ys = true := by
              simpa [strLeB, hxy, hyx] using h1
            by_cases hyz : y.toNat < z.toNat
            · simp [strLeB, hxy' ▸ hyz]
            · by_cases hzy : z.toNat < y.toNat
              · simp [strLeB, hyz, hzy] at h2
              · have hyz' : y.toNat = z.toNat :=
                  Nat.le_antisymm (Nat.not_lt.mp hzy) (Nat.not_lt.mp hyz)
                have h2' : strLeB ys zs = true := by
                  simpa [strLeB, hyz, hzy] using h2
                have hxz : ¬ x.toNat < z.toNat := by omega
                have hzx : ¬ z.toNat < x.toNat := by omega
                simp [strLeB, hxz, hzx, ih ys zs h1' h2']

/-- C6: the undefined-word list is sorted lexicographically (code-point
order, as Python sorts strings), has no duplicates, and contains a token
iff it occurs in the token sequence and is absent from all three lexicon
categories. -/
theorem find_undefined_spec (words : List String) (P N T : Dict) :
    (find_undefined words P N T).Pairwise
      (fun a b => strLeB a.data b.data = true)
    ∧ (find_undefined words P N T).Nodup
    ∧ ∀ w, w ∈ find_undefined words P N T ↔
        (w ∈ words ∧ P.lookup w = none ∧ N.lookup w = none ∧
          T.lookup w = none) := by
  refine ⟨?_, ?_, ?_⟩
  · haveI : IsTotal String (fun a b => strLeB a.data b.data = true) :=
      ⟨fun a b => strLeB_total a.data b.data⟩
    haveI : IsTrans String (fun a b => strLeB a.data b.data = true) :=
      ⟨fun a b c => strLeB_trans a.data b.data c.data⟩
    exact List.sorted_insertionSort _ _
  · exact ((List.perm_insertionSort _ _).nodup_iff).mpr (List.nodup_dedup _)
  · intro w
    show w ∈ List.insertionSort _ _ ↔ _
    rw [List.mem_insertionSort, List.mem_dedup, List.mem_filter]
    simp [Option.isNone_iff_eq_none, and_assoc]

theorem hamLe_total (a b : Option Nat) : hamLe a b = true ∨ hamLe b a = true := by
  cases a <;> cases b <;> simp [hamLe]
  omega

theorem hamLe_trans (a b c : Option Nat) (h1 : hamLe a b = true)
    (h2 : hamLe b c = true) : hamLe a c = true := by
  cases a <;> cases b <;> cases c <;> simp [hamLe] at *
  omega

theorem keyLe_total (k1 k2 : Nat × Option Nat) :
    keyLe k1 k2 = true ∨ keyLe k2 k1 = true := by
  by_cases h : k1.1 < k2.1
  · exact Or.inl (by simp [keyLe, h])
  · by_cases h2 : k2.1 < k1.1
    · exact Or.inr (by simp [keyLe, h2])
    · have he : k1.1 = k2.1 := Nat.le_antisymm (Nat.not_lt.mp h2) (Nat.not_lt.mp h)
      rcases hamLe_total k1.2 k2.2 with hh | hh
      · exact Or.inl (by simp [keyLe, he, hh])
      · exact Or.inr (by simp [keyLe, he.symm, hh])

theorem keyLe_trans (k1 k2 k3 : Nat × Option Nat) (h1 : keyLe k1 k2 = true)
    (h2 : keyLe k2 k3 = true) : keyLe k1 k3 = true := by
  simp only [keyLe, Bool.or_eq_true, Bool.and_eq_true, decide_eq_true_eq] at h1 h2 ⊢
  rcases h1 with h | ⟨he, hh⟩ <;> rcases h2 with h' | ⟨he', hh'⟩
  · exact Or.inl (lt_trans h h')
  · exact Or.inl (he' ▸ h)
  · exact Or.inl (he ▸ h')
  · exact Or.inr ⟨he.trans he', hamLe_trans _ _ _ hh hh'⟩

/-- C7: the candidate suggestions are at most 5, ordered by Levenshtein
distance then (for equal-length candidates) Hamming distance — `none`,
the unequal-length marker, ranking worst — and every returned triple is a
lexicon key with exactly those distances; for `"grasias"` against a
lexicon containing `"gracias"`, the top suggestion is `"gracias"` at edit
distance 1. -/
theorem suggest_candidates_spec (word : String) (keys : List String) :
    (suggest_candidates word keys).length ≤ 5
    ∧ (suggest_candidates word keys).Pairwise
        (fun a b => keyLe a.2 b.2 = true)
    ∧ (∀ c ∈ suggest_candidates word keys,
        c.1 ∈ keys ∧ c.2.1 = levDistance word c.1 ∧
        c.2.2 = (if word.data.length = c.1.data.length
          then some (hamming word.data c.1.data) else none))
    ∧ (suggest_candidates "grasias" ["hola", "gracias", "adios"]).headD
        ("", 0, none) = ("gracias", 1, some 1) := by
  refine ⟨?_, ?_, ?_, by decide⟩
  · show (List.take 5 _).length ≤ 5
    rw [List.length_take]
    exact min_le_left _ _
  · haveI : IsTotal (String × Nat × Option Nat)
        (fun a b => keyLe a.2 b.2 = true) :=
      ⟨fun a b => keyLe_total a.2 b.2⟩
    haveI : IsTrans (String × Nat × Option Nat)
        (fun a b => keyLe a.2 b.2 = true) :=
      ⟨fun a b c => keyLe_trans a.2 b.2 c.2⟩
    exact List.Pairwise.sublist (List.take_sublist _ _)
      (List.sorted_insertionSort _ _)
  · intro c hc
    have hc' : c ∈ List.insertionSort (fun a b => keyLe a.2 b.2 = true)
        ((keys.map (fun k => (k, levDistance word k,
          if word.data.length = k.data.length
          then some (hamming word.data k.data) else none)))) :=
      List.mem_of_mem_take hc
    rw [List.mem_insertionSort, List.mem_map] at hc'
    obtain ⟨k, hk, rfl⟩ := hc'
    exact ⟨hk, rfl, rfl⟩

/-- Closed instance of the suggestion theorem at the spec's scenario. -/
theorem suggest_candidates_spec_witness :
    ("gracias" : String) ∈ ["hola", "gracias", "adios"]
    ∧ (1 : Nat) = levDistance "grasias" "gracias"
    ∧ (some 1 : Option Nat) =
        (if ("grasias" : String).data.length = ("gracias" : String).data.length
          then some (hamming "grasias".data "gracias".data) else none) :=
  (suggest_candidates_spec "grasias" ["hola", "gracias", "adios"]).2.2.1
    ("gracias", 1, some 1) (by decide)

/-- Values of the backing `tokens.json` document. -/
inductive Json where
  | jnull
  | jbool (b : Bool)
  | jnum (n : Int)
  | jstr (s : String)
  | jarr (elems : List Json)
  | jobj (fields : List (String × Json))

/-- A lexicon mapping as a JSON object value. -/
def dictJson (m : Dict) : Json := .jobj (m.map (fun p => (p.1, .jnum p.2)))

/-- Python dict assignment `data[k] = v` on the top level of the loaded
document: overwrite in place when present, append otherwise. -/
def setField (fields : List (String × Json)) (k : String) (v : Json) :
    List (String × Json) :=
  if (fields.lookup k).isSome then
    fields.map (fun p => if p.1 = k then (k, v) else p)
  else fields ++ [(k, v)]

/-- `save_lexicon` (`interactive.py`, lines 9-20): load the document,
overwrite exactly the three category fields, write the whole document
back. -/
def save_lexicon (positivos negativos neutros : Dict)
    (doc : List (String × Json)) : List (String × Json) :=
  setField (setField (setField doc "positivos" (dictJson positivos))
    "negativos" (dictJson negativos)) "neutros" (dictJson neutros)

theorem lookup_map_update (fields : List (String × Json)) (k k' : String)
    (v : Json) (h : k ≠ k') :
    (fields.map (fun p => if p.1 = k' then (k', v) else p)).lookup k =
      fields.lookup k := by
  induction fields with
  | nil => rfl
  | cons p ps ih =>
    obtain ⟨pk, pv⟩ := p
    by_cases hp : pk = k'
    · subst hp
      have hk : (k == pk) = false := by simp [h]
      simp only [List.map_cons]
      rw [if_pos trivial]
      simp only [List.lookup, hk]
      exact ih
    · simp only [List.map_cons]
      rw [if_neg hp]
      simp only [List.lookup]
      cases hkp : k == pk <;> simp [hkp, ih]

theorem lookup_append_single (fields : List (String × Json)) (k k' : String)
    (v : Json) (h : k ≠ k') :
    (fields ++ [(k', v)]).lookup k = fields.lookup k := by
  induction fields with
  | nil =>
    have hk : (k == k') = false := by simp [h]
    simp [List.lookup, hk]
  | cons p ps ih =>
    obtain ⟨pk, pv⟩ := p
    cases hkp : k == pk <;> simp [List.lookup, hkp, ih]

theorem lookup_setField_ne (fields : List (String × Json)) (k k' : String)
    (v : Json) (h : k ≠ k') :
    (setField fields k' v).lookup k = fields.lookup k := by
  unfold setField
  split
  · exact lookup_map_update fields k k' v h
  · exact lookup_append_single fields k k' v h

/-- C9: saving the lexicon rewrites only the three category fields of the
backing document; every other top-level field keeps the value it had. -/
theorem save_lexicon_frame (pos neg neut : Dict)
    (doc : List (String × Json)) (k : String)
    (h1 : k ≠ "positivos") (h2 : k ≠ "negativos") (h3 : k ≠ "neutros") :
    (save_lexicon pos neg neut doc).lookup k = doc.lookup k := by
  unfold save_lexicon
  rw [lookup_setField_ne _ _ _ _ h3, lookup_setField_ne _ _ _ _ h2,
    lookup_setField_ne _ _ _ _ h1]

/-- Closed instance of the frame theorem: a `version` field survives a
save that rewrites the three category mappings. -/
theorem save_lexicon_frame_witness :
    (save_lexicon [("bueno", 2)] [("malo", -1)] []
      [("version", Json.jnum 7), ("positivos", Json.jobj [])]).lookup
      "version" = some (Json.jnum 7) := by
  rw [save_lexicon_frame [("bueno", 2)] [("malo", -1)] []
    [("version", Json.jnum 7), ("positivos", Json.jobj [])] "version"
    (by decide) (by decide) (by decide)]
  rfl
